import Mathlib

/-!
Shallow embedding of the meeting-agent core: the in-memory entity store
(`MemStorage` in src/server/slack.ts, used through src/server/storage.ts) and the
reminder scheduler (src/server/scheduler.ts).

Conventions of the embedding:
* JS `Date` values are modelled as `Time := Int`, milliseconds since the epoch
  (`Date.getTime()`).  `new Date()` at a call site becomes an explicit `now : Time`
  argument.
* A JS `Map` is modelled as an association list in insertion order: `set` on an
  existing key replaces the value in place, `set` on a fresh key appends, and
  `values()` is the list of second components (insertion order), exactly the
  observable behaviour of `Map`.
* `async` methods have no internal awaits that interleave state; they are modelled
  as pure state-passing functions.
* Fallible lookups return `Option`.
-/

namespace App

/-- Milliseconds since the Unix epoch, as returned by JS `Date.getTime()`. -/
abbrev Time := Int

/-- One day in milliseconds (the scheduler's `setDate(getDate() - 1)` offset,
which the spec describes as "dueDate - 1 day"). -/
def dayMs : Int := 86400000

/-- JS `Map.get`: value stored at `k`, if any. -/
def mapGet [DecidableEq K] (m : List (K × V)) (k : K) : Option V :=
  (m.find? (fun p => decide (p.1 = k))).map (fun p => p.2)

/-- JS `Map.set`: replace in place when the key exists, append otherwise. -/
def mapSet [DecidableEq K] (m : List (K × V)) (k : K) (v : V) : List (K × V) :=
  if (m.find? (fun p => decide (p.1 = k))).isSome then
    m.map (fun p => if p.1 = k then (k, v) else p)
  else
    m ++ [(k, v)]

/-- JS `Map.delete`. -/
def mapDelete [DecidableEq K] (m : List (K × V)) (k : K) : List (K × V) :=
  m.filter (fun p => decide (p.1 ≠ k))

/-- JS `Array.from(map.values())`. -/
def mapValues (m : List (K × V)) : List V :=
  m.map (fun p => p.2)

/-- shared/schema.ts `User`. -/
structure User where
  id : Nat
  username : String
  password : String
deriving Repr, DecidableEq

/-- shared/schema.ts `InsertUser`. -/
structure InsertUser where
  username : String
  password : String
deriving Repr, DecidableEq

/-- shared/schema.ts `Decision`. -/
structure Decision where
  id : Nat
  title : String
  description : String
  source : String
  team : Option String
  createdAt : Time
deriving Repr, DecidableEq

/-- shared/schema.ts `InsertDecision`. -/
structure InsertDecision where
  title : String
  description : String
  source : String
  team : Option String
deriving Repr, DecidableEq

/-- shared/schema.ts `ActionItem`. -/
structure ActionItem where
  id : Nat
  title : String
  decisionId : Option Nat
  assignee : String
  dueDate : Time
  completed : Bool
  completedAt : Option Time
  priority : String
  createdAt : Time
deriving Repr, DecidableEq

/-- shared/schema.ts `InsertActionItem`. -/
structure InsertActionItem where
  title : String
  decisionId : Option Nat
  assignee : String
  dueDate : Time
  priority : String
deriving Repr, DecidableEq

/-- shared/schema.ts `Notification`. -/
structure Notification where
  id : Nat
  type : String
  actionItemId : Option Nat
  message : String
  read : Bool
  createdAt : Time
deriving Repr, DecidableEq

/-- shared/schema.ts `InsertNotification`. -/
structure InsertNotification where
  type : String
  actionItemId : Option Nat
  message : String
deriving Repr, DecidableEq

/-- shared/schema.ts `Recording` (caller-supplied string id; optional fields). -/
structure Recording where
  id : String
  title : Option String
  transcription : Option String
  duration : Option Int
  status : String
  createdAt : Option Time
deriving Repr, DecidableEq

/-- TS `Partial<ActionItem>` as passed to `updateActionItem`: the outer `Option`
records whether the field is present in the partial object; `{...item, ...updates}`
overrides exactly the present fields. -/
structure ActionItemUpdate where
  id : Option Nat := none
  title : Option String := none
  decisionId : Option (Option Nat) := none
  assignee : Option String := none
  dueDate : Option Time := none
  completed : Option Bool := none
  completedAt : Option (Option Time) := none
  priority : Option String := none
  createdAt : Option Time := none
deriving Repr, DecidableEq

/-- TS `Partial<Recording>` as passed to `updateRecording`. -/
structure RecordingUpdate where
  id : Option String := none
  title : Option (Option String) := none
  transcription : Option (Option String) := none
  duration : Option (Option Int) := none
  status : Option String := none
  createdAt : Option (Option Time) := none
deriving Repr, DecidableEq

/-- The private state of `MemStorage` (src/server/slack.ts lines 210-240):
five maps plus four id counters, all counters starting at 1. -/
structure Store where
  users : List (Nat × User)
  decisions : List (Nat × Decision)
  actionItems : List (Nat × ActionItem)
  notifications : List (Nat × Notification)
  recordings : List (String × Recording)
  userId : Nat
  decisionId : Nat
  actionItemId : Nat
  notificationId : Nat
deriving Repr, DecidableEq

/-- The field state set up by the `MemStorage` constructor before it seeds sample
data: empty maps, all counters 1. -/
def mkStore : Store :=
  { users := [], decisions := [], actionItems := [], notifications := [],
    recordings := [], userId := 1, decisionId := 1, actionItemId := 1,
    notificationId := 1 }

/-- `MemStorage.getUser`. -/
def Store.getUser (s : Store) (id : Nat) : Option User :=
  mapGet s.users id

/-- `MemStorage.getUserByUsername`. -/
def Store.getUserByUsername (s : Store) (username : String) : Option User :=
  (mapValues s.users).find? (fun u => decide (u.username = username))

/-- `MemStorage.createUser`: `const id = this.userId++`; the computed `createdAt`
is unused in the source (the `User` shape has no such field). -/
def Store.createUser (s : Store) (insertUser : InsertUser) : User × Store :=
  let id := s.userId
  let user : User := { id := id, username := insertUser.username,
                       password := insertUser.password }
  (user, { s with users := mapSet s.users id user, userId := s.userId + 1 })

/-- `MemStorage.getDecision`. -/
def Store.getDecision (s : Store) (id : Nat) : Option Decision :=
  mapGet s.decisions id

/-- `MemStorage.createDecision`. -/
def Store.createDecision (s : Store) (now : Time) (insertDecision : InsertDecision) :
    Decision × Store :=
  let id := s.decisionId
  let decision : Decision :=
    { id := id, title := insertDecision.title,
      description := insertDecision.description, source := insertDecision.source,
      team := insertDecision.team, createdAt := now }
  (decision,
   { s with decisions := mapSet s.decisions id decision,
            decisionId := s.decisionId + 1 })

/-- `MemStorage.createNotification`: `const id = this.notificationId++`,
`createdAt = new Date()`, `read: false`. -/
def Store.createNotification (s : Store) (now : Time)
    (insertNotification : InsertNotification) : Notification × Store :=
  let id := s.notificationId
  let n : Notification :=
    { id := id, type := insertNotification.type,
      actionItemId := insertNotification.actionItemId,
      message := insertNotification.message, read := false, createdAt := now }
  (n, { s with notifications := mapSet s.notifications id n,
               notificationId := s.notificationId + 1 })

/-- `MemStorage.getActionItem`. -/
def Store.getActionItem (s : Store) (id : Nat) : Option ActionItem :=
  mapGet s.actionItems id

/-- `MemStorage.createActionItem`: allocates the next id, defaults
`completed: false`, `completedAt: null`, stores the item, then creates a
`new_assignment` Notification as a side effect. -/
def Store.createActionItem (s : Store) (now : Time)
    (insertActionItem : InsertActionItem) : ActionItem × Store :=
  let id := s.actionItemId
  let actionItem : ActionItem :=
    { id := id, title := insertActionItem.title,
      decisionId := insertActionItem.decisionId,
      assignee := insertActionItem.assignee,
      dueDate := insertActionItem.dueDate,
      priority := insertActionItem.priority,
      createdAt := now, completed := false, completedAt := none }
  let s := { s with actionItems := mapSet s.actionItems id actionItem,
                    actionItemId := s.actionItemId + 1 }
  let s := (s.createNotification now
    { type := "new_assignment", actionItemId := some id,
      message := "New action item assigned: " ++ actionItem.title }).2
  (actionItem, s)

/-- The shallow merge `{ ...actionItem, ...updates }`. -/
def applyActionItemUpdate (item : ActionItem) (u : ActionItemUpdate) : ActionItem :=
  { id := u.id.getD item.id,
    title := u.title.getD item.title,
    decisionId := u.decisionId.getD item.decisionId,
    assignee := u.assignee.getD item.assignee,
    dueDate := u.dueDate.getD item.dueDate,
    completed := u.completed.getD item.completed,
    completedAt := u.completedAt.getD item.completedAt,
    priority := u.priority.getD item.priority,
    createdAt := u.createdAt.getD item.createdAt }

/-- `MemStorage.updateActionItem`: blind shallow merge; `undefined` when absent. -/
def Store.updateActionItem (s : Store) (id : Nat) (updates : ActionItemUpdate) :
    Option ActionItem × Store :=
  match mapGet s.actionItems id with
  | none => (none, s)
  | some actionItem =>
    let updatedItem := applyActionItemUpdate actionItem updates
    (some updatedItem, { s with actionItems := mapSet s.actionItems id updatedItem })

/-- `MemStorage.completeActionItem`: sets `completed: true, completedAt: new Date()`
and creates an `item_completed` Notification. -/
def Store.completeActionItem (s : Store) (now : Time) (id : Nat) :
    Option ActionItem × Store :=
  match mapGet s.actionItems id with
  | none => (none, s)
  | some actionItem =>
    let updatedItem := { actionItem with completed := true, completedAt := some now }
    let s := { s with actionItems := mapSet s.actionItems id updatedItem }
    let s := (s.createNotification now
      { type := "item_completed", actionItemId := some id,
        message := "Action item completed: " ++ actionItem.title }).2
    (some updatedItem, s)

/-- `MemStorage.getOverdueActionItems`: `!item.completed && new Date(item.dueDate) < now`. -/
def Store.getOverdueActionItems (s : Store) (now : Time) : List ActionItem :=
  (mapValues s.actionItems).filter
    (fun item => !item.completed && decide (item.dueDate < now))

/-- `limit ? xs.slice(0, limit) : xs`: a limit of `0` is falsy in JS, so it means
no truncation, exactly like an absent limit. -/
def jsLimit (limit : Option Nat) (xs : List α) : List α :=
  match limit with
  | some n => if n ≠ 0 then xs.take n else xs
  | none => xs

/-- The action-item sort order: comparator `(a, b) => a.dueDate - b.dueDate`
(ascending due date). -/
def dueDateAsc (a b : ActionItem) : Prop := a.dueDate ≤ b.dueDate

instance : DecidableRel dueDateAsc :=
  fun a b => inferInstanceAs (Decidable (a.dueDate ≤ b.dueDate))

instance : IsTotal ActionItem dueDateAsc :=
  ⟨fun a b => le_total a.dueDate b.dueDate⟩

instance : IsTrans ActionItem dueDateAsc :=
  ⟨fun _ _ _ h1 h2 => le_trans h1 h2⟩

/-- The decision sort order: comparator `(a, b) => b.createdAt - a.createdAt`
(newest first). -/
def decisionNewestFirst (a b : Decision) : Prop := b.createdAt ≤ a.createdAt

instance : DecidableRel decisionNewestFirst :=
  fun a b => inferInstanceAs (Decidable (b.createdAt ≤ a.createdAt))

instance : IsTotal Decision decisionNewestFirst :=
  ⟨fun a b => le_total b.createdAt a.createdAt⟩

instance : IsTrans Decision decisionNewestFirst :=
  ⟨fun _ _ _ h1 h2 => le_trans h2 h1⟩

/-- The notification sort order: comparator `(a, b) => b.createdAt - a.createdAt`
(newest first). -/
def notifNewestFirst (a b : Notification) : Prop := b.createdAt ≤ a.createdAt

instance : DecidableRel notifNewestFirst :=
  fun a b => inferInstanceAs (Decidable (b.createdAt ≤ a.createdAt))

instance : IsTotal Notification notifNewestFirst :=
  ⟨fun a b => le_total b.createdAt a.createdAt⟩

instance : IsTrans Notification notifNewestFirst :=
  ⟨fun _ _ _ h1 h2 => le_trans h2 h1⟩

/-- The recording sort key: `a.createdAt || new Date(0)` (a null `createdAt`
falls back to the epoch). -/
def recSortKey (r : Recording) : Time := r.createdAt.getD 0

/-- The recording sort order: comparator `(a, b) => dateB - dateA` (newest
first, null `createdAt` treated as the epoch). -/
def recNewestFirst (a b : Recording) : Prop := recSortKey b ≤ recSortKey a

instance : DecidableRel recNewestFirst :=
  fun a b => inferInstanceAs (Decidable (recSortKey b ≤ recSortKey a))

instance : IsTotal Recording recNewestFirst :=
  ⟨fun a b => le_total (recSortKey b) (recSortKey a)⟩

instance : IsTrans Recording recNewestFirst :=
  ⟨fun _ _ _ h1 h2 => le_trans h2 h1⟩

/-- `MemStorage.listDecisions`: sort newest first, then `limit ? slice : all`. -/
def Store.listDecisions (s : Store) (limit : Option Nat) : List Decision :=
  let decisions := List.insertionSort decisionNewestFirst (mapValues s.decisions)
  jsLimit limit decisions

/-- The filter object accepted by `listActionItems`. -/
structure ActionItemFilters where
  completed : Option Bool := none
  decisionId : Option Nat := none
deriving Repr, DecidableEq

/-- `MemStorage.listActionItems`: apply the `completed` filter when supplied,
then the `decisionId` filter when supplied, sort by ascending due date, then
`limit ? slice : all`. -/
def Store.listActionItems (s : Store) (filters : Option ActionItemFilters)
    (limit : Option Nat) : List ActionItem :=
  let actionItems := mapValues s.actionItems
  let actionItems :=
    match filters with
    | none => actionItems
    | some f =>
      let actionItems :=
        match f.completed with
        | none => actionItems
        | some c => actionItems.filter (fun item => item.completed == c)
      match f.decisionId with
      | none => actionItems
      | some d => actionItems.filter (fun item => item.decisionId == some d)
  let actionItems := List.insertionSort dueDateAsc actionItems
  jsLimit limit actionItems

/-- `MemStorage.getNotification`. -/
def Store.getNotification (s : Store) (id : Nat) : Option Notification :=
  mapGet s.notifications id

/-- `MemStorage.listNotifications`: optional `read` filter, sort newest first,
then `limit ? slice : all`. -/
def Store.listNotifications (s : Store) (read : Option Bool) (limit : Option Nat) :
    List Notification :=
  let notifications := mapValues s.notifications
  let notifications :=
    match read with
    | none => notifications
    | some r => notifications.filter (fun n => n.read == r)
  let notifications := List.insertionSort notifNewestFirst notifications
  jsLimit limit notifications

/-- `MemStorage.markNotificationAsRead`. -/
def Store.markNotificationAsRead (s : Store) (id : Nat) :
    Option Notification × Store :=
  match mapGet s.notifications id with
  | none => (none, s)
  | some n =>
    let updated := { n with read := true }
    (some updated, { s with notifications := mapSet s.notifications id updated })

/-- `MemStorage.countUnreadNotifications`. -/
def Store.countUnreadNotifications (s : Store) : Nat :=
  (s.listNotifications (some false) none).length

/-- `MemStorage.getRecording`. -/
def Store.getRecording (s : Store) (id : String) : Option Recording :=
  mapGet s.recordings id

/-- `MemStorage.createRecording`: defaults a missing `createdAt` to now, then
`set`s under the caller-supplied string id (overwriting any existing entry). -/
def Store.createRecording (s : Store) (now : Time) (recording : Recording) :
    Recording × Store :=
  let recording :=
    if recording.createdAt.isNone then { recording with createdAt := some now }
    else recording
  (recording, { s with recordings := mapSet s.recordings recording.id recording })

/-- The shallow merge `{ ...recording, ...updates }`. -/
def applyRecordingUpdate (r : Recording) (u : RecordingUpdate) : Recording :=
  { id := u.id.getD r.id,
    title := u.title.getD r.title,
    transcription := u.transcription.getD r.transcription,
    duration := u.duration.getD r.duration,
    status := u.status.getD r.status,
    createdAt := u.createdAt.getD r.createdAt }

/-- `MemStorage.updateRecording`. -/
def Store.updateRecording (s : Store) (id : String) (updates : RecordingUpdate) :
    Option Recording × Store :=
  match mapGet s.recordings id with
  | none => (none, s)
  | some recording =>
    let updatedRecording := applyRecordingUpdate recording updates
    (some updatedRecording,
     { s with recordings := mapSet s.recordings id updatedRecording })

/-- `MemStorage.listRecordings`: sort newest first (null `createdAt` as the
epoch), then `limit ? slice : all`. -/
def Store.listRecordings (s : Store) (limit : Option Nat) : List Recording :=
  let recordings := List.insertionSort recNewestFirst (mapValues s.recordings)
  jsLimit limit recordings

/-- The `MemStorage` constructor: seeds the sample user, then `addSampleData`
(three decisions, five action items with due dates at fixed offsets from now,
the fifth immediately completed).  `now` is the construction time. -/
def initStore (now : Time) : Store :=
  let s := (mkStore.createUser
    { username := "alexmorgan", password := "password123" }).2
  let s := (s.createDecision now
    { title := "Marketing Campaign Strategy for Q3",
      description := "We decided to focus on digital channels and increase social media budget by 20% for the upcoming quarter.",
      source := "Meeting Notes", team := some "Marketing Team" }).2
  let s := (s.createDecision now
    { title := "Product Feature Prioritization",
      description := "Mobile responsive redesign will take priority over new analytics dashboard based on customer feedback and usage metrics.",
      source := "Email", team := some "Product Team" }).2
  let s := (s.createDecision now
    { title := "Hiring Plan for Engineering Team",
      description := "Agreed to hire 2 frontend developers and 1 DevOps engineer in the next quarter to support product roadmap execution.",
      source := "Meeting Notes", team := some "HR & Engineering" }).2
  let s := (s.createActionItem now
    { title := "Schedule meeting with design team about new dashboard",
      decisionId := some 1, assignee := "You",
      dueDate := now + 7 * dayMs, priority := "High" }).2
  let s := (s.createActionItem now
    { title := "Finalize Q2 budget approval process",
      decisionId := some 1, assignee := "You",
      dueDate := now - 2 * dayMs, priority := "Urgent" }).2
  let s := (s.createActionItem now
    { title := "Review product launch timeline with engineering",
      decisionId := some 2, assignee := "You",
      dueDate := now + 10 * dayMs, priority := "Medium" }).2
  let s := (s.createActionItem now
    { title := "Prepare sales team for new feature rollout",
      decisionId := some 2, assignee := "Sarah Johnson",
      dueDate := now + 14 * dayMs, priority := "Medium" }).2
  let s := (s.createActionItem now
    { title := "Schedule team retrospective for sprint 24",
      decisionId := some 3, assignee := "You",
      dueDate := now - 5 * dayMs, priority := "Medium" }).2
  let s := (s.completeActionItem now 5).2
  s

/-! ## Reminder scheduler (src/server/scheduler.ts)

`node-schedule` jobs are modelled by explicit `Job` records with fresh numeric
handles.  The system-level set of armed, not-yet-fired, not-cancelled timers is
`SchedState.armed`; the module-level `scheduledJobs : Map<number, Job>` is
`SchedState.scheduledJobs`, whose value is the handle the source saved for that
action item (`none` models a `null` stored when `scheduleJob` was given a past
date). -/

/-- Which of the two reminder timers a job is: the "1 day before due" timer or
the "on due date" timer. -/
inductive TimerKind where
  | oneDayBefore
  | onDue
deriving Repr, DecidableEq

/-- An armed one-shot timer: its handle, the action item it reminds about,
which of the two callbacks it runs, and its fire time. -/
structure Job where
  jobId : Nat
  actionItemId : Nat
  kind : TimerKind
  fireAt : Time
deriving Repr, DecidableEq

/-- Scheduler-module state: armed timers, the `scheduledJobs` map, and a
fresh-handle counter. -/
structure SchedState where
  armed : List Job
  scheduledJobs : List (Nat × Option Nat)
  nextJobId : Nat
deriving Repr, DecidableEq

/-- The scheduler module's initial state: no armed timers, empty map. -/
def initSched : SchedState :=
  { armed := [], scheduledJobs := [], nextJobId := 0 }

/-- Modelled from the spec: `node-schedule`'s `scheduleJob(date, cb)` (the
library itself is not in this repository) "for each fire time that is still in
the future relative to now at scheduling time, arms a one-shot timer"; for a
fire time not in the future it arms nothing and returns `null` (here `none`). -/
def scheduleJob (st : SchedState) (now : Time) (aid : Nat) (kind : TimerKind)
    (fireAt : Time) : Option Nat × SchedState :=
  if now < fireAt then
    let j : Job := { jobId := st.nextJobId, actionItemId := aid, kind := kind,
                     fireAt := fireAt }
    (some j.jobId,
     { st with armed := st.armed ++ [j], nextJobId := st.nextJobId + 1 })
  else
    (none, st)

/-- `cancelActionItemReminder`: look up the saved handle; `if (job)` — only a
non-null stored handle is cancelled and its map entry deleted.  The source never
saves the "1 day before" job's handle, so only the saved job can be cancelled. -/
def cancelActionItemReminder (st : SchedState) (aid : Nat) : SchedState :=
  match mapGet st.scheduledJobs aid with
  | some (some jid) =>
    { st with armed := st.armed.filter (fun j => decide (j.jobId ≠ jid)),
              scheduledJobs := mapDelete st.scheduledJobs aid }
  | _ => st

/-- `scheduleActionItemReminder`: cancel any existing saved job, arm the
"1 day before" timer when `oneDayBefore > new Date()` (its returned handle is
discarded by the source), arm the due-date timer unconditionally via
`scheduleJob`, and save only that second handle in `scheduledJobs`. -/
def scheduleActionItemReminder (st : SchedState) (now : Time) (aid : Nat)
    (dueDate : Time) : SchedState :=
  let st := cancelActionItemReminder st aid
  let oneDayBefore := dueDate - dayMs
  let st :=
    if now < oneDayBefore then
      (scheduleJob st now aid TimerKind.oneDayBefore oneDayBefore).2
    else st
  let res := scheduleJob st now aid TimerKind.onDue dueDate
  { res.2 with scheduledJobs := mapSet res.2.scheduledJobs aid res.1 }

/-- The reminder message text built by the timer callback, distinguishing the
two timers. -/
def reminderMessage (kind : TimerKind) (title : String) : String :=
  match kind with
  | TimerKind.oneDayBefore => "Reminder: \"" ++ title ++ "\" is due tomorrow."
  | TimerKind.onDue => "Due today: \"" ++ title ++ "\" is due today."

/-- The body of a reminder timer's callback (scheduler.ts lines 20-30 and
34-44): re-fetch the action item; `if (actionItem && !actionItem.completed)`
create an `action_reminder` Notification, otherwise change nothing. -/
def reminderCallback (s : Store) (now : Time) (aid : Nat) (kind : TimerKind) :
    Store :=
  match s.getActionItem aid with
  | some actionItem =>
    if !actionItem.completed then
      (s.createNotification now
        { type := "action_reminder", actionItemId := some aid,
          message := reminderMessage kind actionItem.title }).2
    else s
  | none => s

/-- A store paired with the scheduler module's state. -/
structure Sys where
  store : Store
  sched : SchedState
deriving Repr, DecidableEq

/-- Let wall-clock time advance to `now`: every armed timer whose fire time has
been reached fires (in arming order) and is removed from the armed set; each
firing runs `reminderCallback` at its fire time. -/
def fireDueTimers (sys : Sys) (now : Time) : Sys :=
  let due := sys.sched.armed.filter (fun j => decide (j.fireAt ≤ now))
  let remaining := sys.sched.armed.filter (fun j => decide (now < j.fireAt))
  let store := due.foldl
    (fun st j => reminderCallback st j.fireAt j.actionItemId j.kind) sys.store
  { store := store, sched := { sys.sched with armed := remaining } }

/-- One run of the daily overdue sweep (scheduler.ts lines 66-83): re-fetch the
currently-overdue items and create one `overdue_reminder` Notification per item,
unconditionally. -/
def runOverdueSweep (s : Store) (now : Time) : Store :=
  (s.getOverdueActionItems now).foldl
    (fun st item =>
      (st.createNotification now
        { type := "overdue_reminder", actionItemId := some item.id,
          message := "Overdue: \"" ++ item.title ++ "\" is past its due date." }).2)
    s

/-- `n` consecutive runs of the overdue sweep at time `now`. -/
def iterateSweep (s : Store) (now : Time) : Nat → Store
  | 0 => s
  | n + 1 => iterateSweep (runOverdueSweep s now) now n

/-! ## Operation traces over the store

Used to state id-freshness across arbitrary sequences of store calls. -/

/-- One external call into the store. -/
inductive StoreOp where
  | createUser (ins : InsertUser)
  | createDecision (ins : InsertDecision)
  | createActionItem (ins : InsertActionItem)
  | updateActionItem (id : Nat) (u : ActionItemUpdate)
  | completeActionItem (id : Nat)
  | createNotification (ins : InsertNotification)
  | markNotificationAsRead (id : Nat)
  | createRecording (r : Recording)
  | updateRecording (id : String) (u : RecordingUpdate)
deriving Repr

/-- Run one store call at time `now`. -/
def applyOp (s : Store) (now : Time) : StoreOp → Store
  | StoreOp.createUser ins => (s.createUser ins).2
  | StoreOp.createDecision ins => (s.createDecision now ins).2
  | StoreOp.createActionItem ins => (s.createActionItem now ins).2
  | StoreOp.updateActionItem id u => (s.updateActionItem id u).2
  | StoreOp.completeActionItem id => (s.completeActionItem now id).2
  | StoreOp.createNotification ins => (s.createNotification now ins).2
  | StoreOp.markNotificationAsRead id => (s.markNotificationAsRead id).2
  | StoreOp.createRecording r => (s.createRecording now r).2
  | StoreOp.updateRecording id u => (s.updateRecording id u).2

/-- The four entity kinds with integer ids allocated by the store. -/
inductive EntityKind where
  | user
  | decision
  | actionItem
  | notif
deriving Repr, DecidableEq

/-- The id counter the store keeps for a kind. -/
def counterOf : EntityKind → Store → Nat
  | EntityKind.user, s => s.userId
  | EntityKind.decision, s => s.decisionId
  | EntityKind.actionItem, s => s.actionItemId
  | EntityKind.notif, s => s.notificationId

/-- Whether an operation is a `create` call of the given kind. -/
def isCreateOf : EntityKind → StoreOp → Bool
  | EntityKind.user, StoreOp.createUser _ => true
  | EntityKind.decision, StoreOp.createDecision _ => true
  | EntityKind.actionItem, StoreOp.createActionItem _ => true
  | EntityKind.notif, StoreOp.createNotification _ => true
  | _, _ => false

/-- The ids returned by the `create` calls of kind `k` along a trace (each
`create` returns the entity whose id is the kind's counter at call time). -/
def traceIds (k : EntityKind) (s : Store) : List (Time × StoreOp) → List Nat
  | [] => []
  | (t, op) :: rest =>
    (if isCreateOf k op then [counterOf k s] else []) ++
      traceIds k (applyOp s t op) rest

/-! ## Derived predicates used by the theorems -/

/-- The spec's invariant: `completed == true ⟺ completedAt != null`. -/
def itemConsistent (item : ActionItem) : Prop :=
  item.completed = true ↔ item.completedAt ≠ none

instance (item : ActionItem) : Decidable (itemConsistent item) :=
  inferInstanceAs (Decidable (_ ↔ _))

/-- Every stored action item satisfies the completed/completedAt invariant. -/
def itemsConsistent (s : Store) : Prop :=
  ∀ item ∈ mapValues s.actionItems, itemConsistent item

instance (s : Store) : Decidable (itemsConsistent s) :=
  inferInstanceAs (Decidable (∀ item ∈ mapValues s.actionItems, itemConsistent item))

/-- A `Partial<ActionItem>` that keeps the completed/completedAt invariant on
its own: it either touches neither completion field, or sets both coherently
(the repository's only `updateActionItem` call site passes
`{ completed: false, completedAt: null }`). -/
def consistentPartial (u : ActionItemUpdate) : Prop :=
  (u.completed = none ∧ u.completedAt = none) ∨
  (∃ c t, u.completed = some c ∧ u.completedAt = some t ∧ (c = true ↔ t ≠ none))

/-- Well-formedness of the notification map: every stored key is below the
`notificationId` counter.  Holds in every state the program reaches, since ids
are only handed out by the counter. -/
def notifWF (s : Store) : Prop :=
  ∀ p ∈ s.notifications, p.1 < s.notificationId

instance (s : Store) : Decidable (notifWF s) :=
  inferInstanceAs (Decidable (∀ p ∈ s.notifications, p.1 < s.notificationId))

/-- An `overdue_reminder` notification. -/
def isOverdueNotif (n : Notification) : Bool :=
  n.type == "overdue_reminder"

/-- An `overdue_reminder` notification about a given action item. -/
def isOverdueNotifFor (id : Nat) (n : Notification) : Bool :=
  n.type == "overdue_reminder" && n.actionItemId == some id

/-- An `action_reminder` notification about a given action item. -/
def isActionReminderFor (id : Nat) (n : Notification) : Bool :=
  n.type == "action_reminder" && n.actionItemId == some id

/-- Number of stored notifications satisfying a predicate. -/
def countNotifWhere (s : Store) (p : Notification → Bool) : Nat :=
  ((mapValues s.notifications).filter p).length

/-- The spec's description of `listActionItems` filtering: an item matches when
it satisfies every supplied filter, conjunctively. -/
def matchesActionItemFilters (filters : Option ActionItemFilters)
    (item : ActionItem) : Bool :=
  match filters with
  | none => true
  | some f =>
    (match f.completed with
     | none => true
     | some c => item.completed == c) &&
    (match f.decisionId with
     | none => true
     | some d => item.decisionId == some d)

/-- The spec's description of `listNotifications` filtering. -/
def matchesReadFilter (read : Option Bool) (n : Notification) : Bool :=
  match read with
  | none => true
  | some r => n.read == r

/-! ## Association-list (JS Map) lemmas -/

theorem mapGet_mapSet_self [DecidableEq K] (m : List (K × V)) (k : K) (v : V) :
    mapGet (mapSet m k v) k = some v := by
  unfold mapGet mapSet
  by_cases h : (m.find? (fun p => decide (p.1 = k))).isSome
  · simp only [h, if_true]
    rw [List.find?_map]
    have hfun : ((fun p => decide (p.1 = k)) ∘
        (fun p : K × V => if p.1 = k then (k, v) else p)) =
        (fun p : K × V => decide (p.1 = k)) := by
      funext p
      by_cases hp : p.1 = k <;> simp [hp]
    rw [hfun]
    rcases Option.isSome_iff_exists.mp h with ⟨q, hq⟩
    have hq1 : q.1 = k := by
      have := List.find?_some hq
      simpa using this
    simp [hq, hq1]
  · rw [if_neg h]
    have hnone : m.find? (fun p => decide (p.1 = k)) = none := by
      cases hf : m.find? (fun p => decide (p.1 = k)) with
      | none => rfl
      | some q => rw [hf] at h; simp at h
    rw [List.find?_append, hnone]
    simp

theorem mapGet_mapSet_ne [DecidableEq K] (m : List (K × V)) (k k' : K) (v : V)
    (h : k' ≠ k) : mapGet (mapSet m k v) k' = mapGet m k' := by
  unfold mapGet mapSet
  by_cases hs : (m.find? (fun p => decide (p.1 = k))).isSome
  · simp only [hs, if_true]
    rw [List.find?_map]
    have hfun : ((fun p => decide (p.1 = k')) ∘
        (fun p : K × V => if p.1 = k then (k, v) else p)) =
        (fun p : K × V => decide (p.1 = k')) := by
      funext p
      by_cases hp : p.1 = k
      · simp [hp, Ne.symm h]
      · simp [hp]
    rw [hfun]
    cases hf : m.find? (fun p => decide (p.1 = k')) with
    | none => simp
    | some q =>
      have hq1 : q.1 = k' := by
        have := List.find?_some hf
        simpa using this
      have hqk : ¬ q.1 = k := by rw [hq1]; exact h
      simp [hqk]
  · rw [if_neg hs]
    rw [List.find?_append]
    have : List.find? (fun p => decide (p.1 = k')) [(k, v)] = none := by
      simp [Ne.symm h]
    rw [this]
    cases m.find? (fun p => decide (p.1 = k')) <;> rfl

theorem mem_mapValues_mapSet [DecidableEq K] {m : List (K × V)} {k : K} {v x : V}
    (h : x ∈ mapValues (mapSet m k v)) : x = v ∨ x ∈ mapValues m := by
  unfold mapValues mapSet at *
  by_cases hs : (m.find? (fun p => decide (p.1 = k))).isSome
  · simp only [hs, if_true] at h
    rw [List.map_map, List.mem_map] at h
    rcases h with ⟨p, hp, hx⟩
    by_cases hpk : p.1 = k
    · left
      simp [hpk] at hx
      exact hx.symm
    · right
      rw [List.mem_map]
      refine ⟨p, hp, ?_⟩
      simp [hpk] at hx
      exact hx
  · rw [if_neg hs] at h
    rw [List.map_append, List.mem_append] at h
    rcases h with h | h
    · right; exact h
    · left; simpa using h

theorem mapValues_mapSet_fresh [DecidableEq K] {m : List (K × V)} {k : K} (v : V)
    (h : mapGet m k = none) :
    mapValues (mapSet m k v) = mapValues m ++ [v] := by
  unfold mapGet at h
  have hnone : m.find? (fun p => decide (p.1 = k)) = none := by
    cases hf : m.find? (fun p => decide (p.1 = k)) with
    | none => rfl
    | some q => rw [hf] at h; simp at h
  unfold mapSet mapValues
  rw [hnone]
  simp

theorem length_mapSet_of_found [DecidableEq K] {m : List (K × V)} {k : K} (v : V)
    (h : (m.find? (fun p => decide (p.1 = k))).isSome) :
    (mapSet m k v).length = m.length := by
  unfold mapSet
  simp [h]

/-! ## Counter bookkeeping lemmas -/

theorem createUser_counters (s : Store) (ins : InsertUser) :
    (s.createUser ins).2.userId = s.userId + 1 ∧
    (s.createUser ins).2.decisionId = s.decisionId ∧
    (s.createUser ins).2.actionItemId = s.actionItemId ∧
    (s.createUser ins).2.notificationId = s.notificationId := by
  simp [Store.createUser]

theorem createDecision_counters (s : Store) (now : Time) (ins : InsertDecision) :
    (s.createDecision now ins).2.userId = s.userId ∧
    (s.createDecision now ins).2.decisionId = s.decisionId + 1 ∧
    (s.createDecision now ins).2.actionItemId = s.actionItemId ∧
    (s.createDecision now ins).2.notificationId = s.notificationId := by
  simp [Store.createDecision]

theorem createNotification_counters (s : Store) (now : Time)
    (ins : InsertNotification) :
    (s.createNotification now ins).2.userId = s.userId ∧
    (s.createNotification now ins).2.decisionId = s.decisionId ∧
    (s.createNotification now ins).2.actionItemId = s.actionItemId ∧
    (s.createNotification now ins).2.notificationId = s.notificationId + 1 := by
  simp [Store.createNotification]

theorem createActionItem_counters (s : Store) (now : Time)
    (ins : InsertActionItem) :
    (s.createActionItem now ins).2.userId = s.userId ∧
    (s.createActionItem now ins).2.decisionId = s.decisionId ∧
    (s.createActionItem now ins).2.actionItemId = s.actionItemId + 1 ∧
    (s.createActionItem now ins).2.notificationId = s.notificationId + 1 := by
  simp [Store.createActionItem, Store.createNotification]

theorem updateActionItem_counters (s : Store) (id : Nat) (u : ActionItemUpdate) :
    (s.updateActionItem id u).2.userId = s.userId ∧
    (s.updateActionItem id u).2.decisionId = s.decisionId ∧
    (s.updateActionItem id u).2.actionItemId = s.actionItemId ∧
    (s.updateActionItem id u).2.notificationId = s.notificationId := by
  unfold Store.updateActionItem
  cases mapGet s.actionItems id <;> simp

theorem completeActionItem_counters (s : Store) (now : Time) (id : Nat) :
    (s.completeActionItem now id).2.userId = s.userId ∧
    (s.completeActionItem now id).2.decisionId = s.decisionId ∧
    (s.completeActionItem now id).2.actionItemId = s.actionItemId ∧
    s.notificationId ≤ (s.completeActionItem now id).2.notificationId := by
  unfold Store.completeActionItem
  cases mapGet s.actionItems id <;> simp [Store.createNotification]

theorem markNotificationAsRead_counters (s : Store) (id : Nat) :
    (s.markNotificationAsRead id).2.userId = s.userId ∧
    (s.markNotificationAsRead id).2.decisionId = s.decisionId ∧
    (s.markNotificationAsRead id).2.actionItemId = s.actionItemId ∧
    (s.markNotificationAsRead id).2.notificationId = s.notificationId := by
  unfold Store.markNotificationAsRead
  cases mapGet s.notifications id <;> simp

theorem createRecording_counters (s : Store) (now : Time) (r : Recording) :
    (s.createRecording now r).2.userId = s.userId ∧
    (s.createRecording now r).2.decisionId = s.decisionId ∧
    (s.createRecording now r).2.actionItemId = s.actionItemId ∧
    (s.createRecording now r).2.notificationId = s.notificationId := by
  simp [Store.createRecording]

theorem updateRecording_counters (s : Store) (id : String) (u : RecordingUpdate) :
    (s.updateRecording id u).2.userId = s.userId ∧
    (s.updateRecording id u).2.decisionId = s.decisionId ∧
    (s.updateRecording id u).2.actionItemId = s.actionItemId ∧
    (s.updateRecording id u).2.notificationId = s.notificationId := by
  unfold Store.updateRecording
  cases mapGet s.recordings id <;> simp

/-- No store operation ever decreases any id counter. -/
theorem counterOf_le_applyOp (k : EntityKind) (s : Store) (t : Time)
    (op : StoreOp) : counterOf k s ≤ counterOf k (applyOp s t op) := by
  cases op with
  | createUser ins =>
    have h := createUser_counters s ins
    cases k <;> simp only [applyOp, counterOf] <;> omega
  | createDecision ins =>
    have h := createDecision_counters s t ins
    cases k <;> simp only [applyOp, counterOf] <;> omega
  | createActionItem ins =>
    have h := createActionItem_counters s t ins
    cases k <;> simp only [applyOp, counterOf] <;> omega
  | updateActionItem id u =>
    have h := updateActionItem_counters s id u
    cases k <;> simp only [applyOp, counterOf] <;> omega
  | completeActionItem id =>
    have h := completeActionItem_counters s t id
    cases k <;> simp only [applyOp, counterOf] <;> omega
  | createNotification ins =>
    have h := createNotification_counters s t ins
    cases k <;> simp only [applyOp, counterOf] <;> omega
  | markNotificationAsRead id =>
    have h := markNotificationAsRead_counters s id
    cases k <;> simp only [applyOp, counterOf] <;> omega
  | createRecording r =>
    have h := createRecording_counters s t r
    cases k <;> simp only [applyOp, counterOf] <;> omega
  | updateRecording id u =>
    have h := updateRecording_counters s id u
    cases k <;> simp only [applyOp, counterOf] <;> omega

/-- A `create` call of kind `k` strictly increases the kind's counter. -/
theorem counterOf_lt_applyOp_of_create (k : EntityKind) (s : Store) (t : Time)
    (op : StoreOp) (h : isCreateOf k op = true) :
    counterOf k s < counterOf k (applyOp s t op) := by
  cases op with
  | createUser ins =>
    have hc := createUser_counters s ins
    cases k <;> simp [isCreateOf] at h <;> simp only [applyOp, counterOf] <;> omega
  | createDecision ins =>
    have hc := createDecision_counters s t ins
    cases k <;> simp [isCreateOf] at h <;> simp only [applyOp, counterOf] <;> omega
  | createActionItem ins =>
    have hc := createActionItem_counters s t ins
    cases k <;> simp [isCreateOf] at h <;> simp only [applyOp, counterOf] <;> omega
  | createNotification ins =>
    have hc := createNotification_counters s t ins
    cases k <;> simp [isCreateOf] at h <;> simp only [applyOp, counterOf] <;> omega
  | updateActionItem id u => cases k <;> simp [isCreateOf] at h
  | completeActionItem id => cases k <;> simp [isCreateOf] at h
  | markNotificationAsRead id => cases k <;> simp [isCreateOf] at h
  | createRecording r => cases k <;> simp [isCreateOf] at h
  | updateRecording id u => cases k <;> simp [isCreateOf] at h

/-- Every id a trace returns is at least the counter at the trace's start. -/
theorem traceIds_lower (k : EntityKind) (tr : List (Time × StoreOp)) :
    ∀ s : Store, ∀ x ∈ traceIds k s tr, counterOf k s ≤ x := by
  induction tr with
  | nil => intro s x hx; simp [traceIds] at hx
  | cons hd tl ih =>
    intro s x hx
    obtain ⟨t, op⟩ := hd
    rw [traceIds, List.mem_append] at hx
    rcases hx with h | h
    · by_cases hc : isCreateOf k op = true
      · rw [if_pos hc] at h
        simp at h
        omega
      · rw [if_neg hc] at h
        simp at h
    · calc counterOf k s ≤ counterOf k (applyOp s t op) :=
            counterOf_le_applyOp k s t op
        _ ≤ x := ih (applyOp s t op) x h

/-! ## Claim theorems -/

/-- C4: for every starting store and every sequence of store calls, the ids
returned by the `create` calls of any one entity kind (User, Decision,
ActionItem, Notification) are strictly increasing in call order — hence
pairwise distinct, and an id once returned is never returned again. -/
theorem create_ids_strictly_increasing (k : EntityKind) (s : Store)
    (tr : List (Time × StoreOp)) :
    List.Pairwise (fun a b => a < b) (traceIds k s tr) := by
  induction tr generalizing s with
  | nil => simp [traceIds]
  | cons hd tl ih =>
    obtain ⟨t, op⟩ := hd
    rw [traceIds]
    by_cases hc : isCreateOf k op = true
    · rw [if_pos hc]
      simp only [List.singleton_append, List.pairwise_cons]
      constructor
      · intro x hx
        have h1 : counterOf k (applyOp s t op) ≤ x :=
          traceIds_lower k tl (applyOp s t op) x hx
        have h2 : counterOf k s < counterOf k (applyOp s t op) :=
          counterOf_lt_applyOp_of_create k s t op hc
        omega
      · exact ih (applyOp s t op)
    · rw [if_neg hc]
      simpa using ih (applyOp s t op)

/-- C1 (bug exhibit): create action item 6 (due in 2 days) in the seeded store,
register its reminders, cancel them, and let the first fire time (1 day before
due) elapse: an `action_reminder` Notification for id 6 is still created,
because the source never saves the "1 day before" job's handle and
`cancelActionItemReminder` therefore cannot cancel that timer. -/
theorem cancel_then_fire_still_notifies :
    countNotifWhere
      (fireDueTimers
        { store := ((initStore 0).createActionItem 0
            { title := "T", decisionId := none, assignee := "A",
              dueDate := 2 * dayMs, priority := "High" }).2,
          sched := cancelActionItemReminder
            (scheduleActionItemReminder initSched 0 6 (2 * dayMs)) 6 }
        dayMs).store (isActionReminderFor 6) = 1 := by
  decide

/-- C2 (bug exhibit): scheduling twice for the same id (due in 3 days, then due
in 5 days) leaves three timers armed for that id, including the first
registration's "1 day before" timer (fire time `3 * dayMs - dayMs`): the first
pair is not fully cancelled, so two live registrations coexist. -/
theorem reschedule_leaves_stale_timer :
    ((scheduleActionItemReminder
        (scheduleActionItemReminder initSched 0 6 (3 * dayMs)) 0 6
        (5 * dayMs)).armed.filter (fun j => j.actionItemId == 6)).length = 3 ∧
    (scheduleActionItemReminder
        (scheduleActionItemReminder initSched 0 6 (3 * dayMs)) 0 6
        (5 * dayMs)).armed.any
      (fun j => j.fireAt == 3 * dayMs - dayMs &&
        j.kind == TimerKind.oneDayBefore) = true := by
  constructor <;> decide

/-- C3 (counterexample): `updateActionItem` with the partial argument
`{ completed: true }` (and no `completedAt`) produces a stored item with
`completed = true` and `completedAt = null`, breaking the invariant in a state
reached from the constructor by one store call. -/
theorem updateActionItem_breaks_invariant :
    ¬ itemsConsistent
      ((initStore 0).updateActionItem 1 { completed := some true }).2 := by
  decide

/-- C9 (counterexample): with one stored notification, `listNotifications`
called with the supplied limit `0` returns 1 entry, not at most 0: a limit of
`0` is falsy in JS and is treated as no limit at all. -/
theorem limit_zero_not_truncated :
    ¬ (((mkStore.createNotification 0
        { type := "action_reminder", actionItemId := none,
          message := "m" }).2.listNotifications none (some 0)).length ≤ 0) := by
  decide

/-- C5: `getOverdueActionItems` returns exactly the stored items with
`completed = false` and `dueDate` strictly before `now`; an item due exactly
now is not returned, and a completed item is never returned. -/
theorem getOverdueActionItems_spec (s : Store) (now : Time) :
    (∀ item : ActionItem,
      item ∈ s.getOverdueActionItems now ↔
        item ∈ mapValues s.actionItems ∧ item.completed = false ∧
          item.dueDate < now) ∧
    (∀ item : ActionItem, item.dueDate = now →
      item ∉ s.getOverdueActionItems now) ∧
    (∀ item : ActionItem, item.completed = true →
      item ∉ s.getOverdueActionItems now) := by
  have hmem : ∀ item : ActionItem,
      item ∈ s.getOverdueActionItems now ↔
        item ∈ mapValues s.actionItems ∧ item.completed = false ∧
          item.dueDate < now := by
    intro item
    unfold Store.getOverdueActionItems
    rw [List.mem_filter]
    simp [Bool.and_eq_true, Bool.not_eq_true', and_assoc]
  refine ⟨hmem, ?_, ?_⟩
  · intro item hdue hin
    rcases (hmem item).mp hin with ⟨_, _, hlt⟩
    rw [hdue] at hlt
    exact lt_irrefl now hlt
  · intro item hcomp hin
    rcases (hmem item).mp hin with ⟨_, hfalse, _⟩
    rw [hcomp] at hfalse
    exact Bool.noConfusion hfalse

/-- Witness for C5: the seeded store's item 1 is due in 7 days, so it is not
overdue at construction time; the theorem's "due exactly now" clause applied to
a concrete item also holds. -/
theorem getOverdueActionItems_spec_witness :
    ({ id := 1, title := "t", decisionId := none, assignee := "a",
       dueDate := 0, completed := false, completedAt := none,
       priority := "High", createdAt := 0 } : ActionItem) ∉
      (initStore 0).getOverdueActionItems 0 :=
  (getOverdueActionItems_spec (initStore 0) 0).2.1
    { id := 1, title := "t", decisionId := none, assignee := "a",
      dueDate := 0, completed := false, completedAt := none,
      priority := "High", createdAt := 0 } rfl

/-- From the empty scheduler state, `scheduleActionItemReminder` arms the
"1 day before" job exactly when its fire time is strictly future, and the
due-date job exactly when the due date is strictly future (fresh handles 0 and
then 1). -/
theorem schedule_initSched_armed (now dueDate : Time) (aid : Nat) :
    (scheduleActionItemReminder initSched now aid dueDate).armed =
      (if now < dueDate - dayMs then
        [{ jobId := 0, actionItemId := aid, kind := TimerKind.oneDayBefore,
           fireAt := dueDate - dayMs }]
      else []) ++
      (if now < dueDate then
        [{ jobId := if now < dueDate - dayMs then 1 else 0,
           actionItemId := aid, kind := TimerKind.onDue, fireAt := dueDate }]
      else []) := by
  unfold scheduleActionItemReminder cancelActionItemReminder initSched
      scheduleJob mapGet
  by_cases h1 : now < dueDate - dayMs <;> by_cases h2 : now < dueDate <;>
    simp [h1, h2]

/-- C6: a `schedule` call at time `now` arms the "1 day before" timer iff
`dueDate - 1 day` is strictly in the future, and the due-date timer iff
`dueDate` itself is strictly in the future; each armed timer belongs to the
given id and fires at the corresponding time; a due date at most 24 hours away
(but still future) arms exactly the due-date timer, and a past due date arms
nothing. -/
theorem schedule_arms_iff (now dueDate : Time) (aid : Nat) :
    ((∃ j ∈ (scheduleActionItemReminder initSched now aid dueDate).armed,
        j.kind = TimerKind.oneDayBefore) ↔ now < dueDate - dayMs) ∧
    ((∃ j ∈ (scheduleActionItemReminder initSched now aid dueDate).armed,
        j.kind = TimerKind.onDue) ↔ now < dueDate) ∧
    (∀ j ∈ (scheduleActionItemReminder initSched now aid dueDate).armed,
      j.actionItemId = aid ∧
      (j.kind = TimerKind.oneDayBefore → j.fireAt = dueDate - dayMs) ∧
      (j.kind = TimerKind.onDue → j.fireAt = dueDate)) ∧
    (dueDate ≤ now →
      (scheduleActionItemReminder initSched now aid dueDate).armed = []) ∧
    (dueDate - dayMs ≤ now → now < dueDate →
      (scheduleActionItemReminder initSched now aid dueDate).armed.length = 1 ∧
      ∀ j ∈ (scheduleActionItemReminder initSched now aid dueDate).armed,
        j.kind = TimerKind.onDue) := by
  have hday : (0 : Int) < dayMs := by norm_num [dayMs]
  rw [schedule_initSched_armed]
  by_cases h1 : now < dueDate - dayMs <;> by_cases h2 : now < dueDate
  · refine ⟨by simp [h1, h2], by simp [h1, h2], ?_, ?_, ?_⟩
    · intro j hj
      simp [h1, h2] at hj
      rcases hj with hj | hj <;> subst hj <;> simp
    · intro hle; exfalso; linarith
    · intro hle _; exfalso; linarith
  · exfalso; linarith
  · refine ⟨by simp [h1, h2], by simp [h1, h2], ?_, ?_, ?_⟩
    · intro j hj
      simp [h1, h2] at hj
      subst hj
      simp
    · intro hle; exfalso; linarith
    · intro _ _
      simp [h1, h2]
  · refine ⟨by simp [h1, h2], by simp [h1, h2], ?_, ?_, ?_⟩
    · intro j hj
      simp [h1, h2] at hj
    · intro _; simp [h1, h2]
    · intro _ h; exact absurd h h2

/-- Witness for C6: a due date already in the past arms zero timers. -/
theorem schedule_arms_iff_witness :
    (scheduleActionItemReminder initSched 0 3 (-1)).armed = [] :=
  (schedule_arms_iff 0 (-1) 3).2.2.2.1 (by norm_num)

/-- A value returned by `mapGet` is among the map's values. -/
theorem mapGet_mem_values [DecidableEq K] {m : List (K × V)} {k : K} {v : V}
    (h : mapGet m k = some v) : v ∈ mapValues m := by
  unfold mapGet at h
  cases hf : m.find? (fun p => decide (p.1 = k)) with
  | none => rw [hf] at h; simp at h
  | some p =>
    rw [hf] at h
    simp at h
    have hp := List.mem_of_find?_eq_some hf
    subst h
    exact List.mem_map.mpr ⟨p, hp, rfl⟩

theorem itemsConsistent_of_actionItems_eq {s1 s2 : Store}
    (h : s2.actionItems = s1.actionItems) (hc : itemsConsistent s1) :
    itemsConsistent s2 := by
  unfold itemsConsistent at *
  rw [h]
  exact hc

theorem itemsConsistent_mkStore : itemsConsistent mkStore := by
  intro item h
  simp [mkStore, mapValues] at h

theorem itemsConsistent_createUser {s : Store} (hc : itemsConsistent s)
    (ins : InsertUser) : itemsConsistent (s.createUser ins).2 :=
  itemsConsistent_of_actionItems_eq (by simp [Store.createUser]) hc

theorem itemsConsistent_createDecision {s : Store} (hc : itemsConsistent s)
    (now : Time) (ins : InsertDecision) :
    itemsConsistent (s.createDecision now ins).2 :=
  itemsConsistent_of_actionItems_eq (by simp [Store.createDecision]) hc

theorem itemsConsistent_createNotification {s : Store} (hc : itemsConsistent s)
    (now : Time) (ins : InsertNotification) :
    itemsConsistent (s.createNotification now ins).2 :=
  itemsConsistent_of_actionItems_eq (by simp [Store.createNotification]) hc

theorem itemsConsistent_createActionItem {s : Store} (hc : itemsConsistent s)
    (now : Time) (ins : InsertActionItem) :
    itemsConsistent (s.createActionItem now ins).2 := by
  intro item hmem
  simp only [Store.createActionItem, Store.createNotification] at hmem
  rcases mem_mapValues_mapSet hmem with h | h
  · subst h
    simp [itemConsistent]
  · exact hc item h

theorem itemsConsistent_completeActionItem {s : Store} (hc : itemsConsistent s)
    (now : Time) (id : Nat) :
    itemsConsistent (s.completeActionItem now id).2 := by
  unfold Store.completeActionItem
  cases hg : mapGet s.actionItems id with
  | none => exact hc
  | some a =>
    intro item hmem
    simp only [Store.createNotification] at hmem
    rcases mem_mapValues_mapSet hmem with h | h
    · subst h
      simp [itemConsistent]
    · exact hc item h

theorem itemsConsistent_updateActionItem {s : Store} (hc : itemsConsistent s)
    (id : Nat) (u : ActionItemUpdate) (hu : consistentPartial u) :
    itemsConsistent (s.updateActionItem id u).2 := by
  unfold Store.updateActionItem
  cases hg : mapGet s.actionItems id with
  | none => exact hc
  | some a =>
    intro item hmem
    simp only at hmem
    rcases mem_mapValues_mapSet hmem with h | h
    · subst h
      have ha : itemConsistent a := hc a (mapGet_mem_values hg)
      rcases hu with ⟨hcn, han⟩ | ⟨c, t, hcs, hts, hct⟩
      · unfold itemConsistent applyActionItemUpdate at *
        rw [hcn, han]
        simpa using ha
      · unfold itemConsistent applyActionItemUpdate at *
        rw [hcs, hts]
        simpa using hct
    · exact hc item h

theorem initStore_itemsConsistent (t : Time) : itemsConsistent (initStore t) := by
  simp only [initStore]
  exact itemsConsistent_completeActionItem
    (itemsConsistent_createActionItem
      (itemsConsistent_createActionItem
        (itemsConsistent_createActionItem
          (itemsConsistent_createActionItem
            (itemsConsistent_createActionItem
              (itemsConsistent_createDecision
                (itemsConsistent_createDecision
                  (itemsConsistent_createDecision
                    (itemsConsistent_createUser itemsConsistent_mkStore _)
                    t _)
                  t _)
                t _)
              t _)
            t _)
          t _)
        t _)
      t _)
    t 5

/-- C3 (amended): the invariant `completed == true ⟺ completedAt != null` holds
in the constructor's state and is preserved by `createActionItem` and
`completeActionItem`; `updateActionItem` preserves it only for partial
arguments that touch neither completion field or set both coherently (as the
repository's single `updateActionItem` call site does) — an inconsistent
partial such as `{ completed: true }` alone breaks it. -/
theorem completed_completedAt_invariant (s : Store) (h : itemsConsistent s) :
    (∀ (now : Time) (ins : InsertActionItem),
      itemsConsistent (s.createActionItem now ins).2) ∧
    (∀ (now : Time) (id : Nat),
      itemsConsistent (s.completeActionItem now id).2) ∧
    (∀ (id : Nat) (u : ActionItemUpdate), consistentPartial u →
      itemsConsistent (s.updateActionItem id u).2) ∧
    (∀ t : Time, itemsConsistent (initStore t)) :=
  ⟨fun now ins => itemsConsistent_createActionItem h now ins,
   fun now id => itemsConsistent_completeActionItem h now id,
   fun id u hu => itemsConsistent_updateActionItem h id u hu,
   fun t => initStore_itemsConsistent t⟩

/-- Witness for C3 (amended): completing item 1 in the seeded store keeps the
invariant. -/
theorem completed_completedAt_invariant_witness :
    itemsConsistent ((initStore 0).completeActionItem 0 1).2 :=
  (completed_completedAt_invariant (initStore 0) (by decide)).2.1 0 1

theorem find?_isSome_of_mapGet [DecidableEq K] {m : List (K × V)} {k : K} {v : V}
    (h : mapGet m k = some v) :
    (m.find? (fun p => decide (p.1 = k))).isSome := by
  unfold mapGet at h
  cases hf : m.find? (fun p => decide (p.1 = k)) with
  | none => rw [hf] at h; simp at h
  | some p => simp

/-- In a well-formed store the next notification id is not yet a key. -/
theorem notifWF_fresh {s : Store} (h : notifWF s) :
    mapGet s.notifications s.notificationId = none := by
  unfold mapGet
  have hn : s.notifications.find?
      (fun p => decide (p.1 = s.notificationId)) = none := by
    rw [List.find?_eq_none]
    intro p hp
    simp only [decide_eq_true_eq]
    exact Nat.ne_of_lt (h p hp)
  rw [hn]
  rfl

/-- With a well-formed store, `createNotification` appends the new notification
to the values, in insertion order. -/
theorem createNotification_values {s : Store} (h : notifWF s) (now : Time)
    (ins : InsertNotification) :
    mapValues (s.createNotification now ins).2.notifications =
      mapValues s.notifications ++
        [{ id := s.notificationId, type := ins.type,
           actionItemId := ins.actionItemId, message := ins.message,
           read := false, createdAt := now }] := by
  simp only [Store.createNotification]
  exact mapValues_mapSet_fresh _ (notifWF_fresh h)

theorem notifWF_createNotification {s : Store} (h : notifWF s) (now : Time)
    (ins : InsertNotification) : notifWF (s.createNotification now ins).2 := by
  simp only [Store.createNotification, notifWF]
  have hfresh : s.notifications.find?
      (fun p => decide (p.1 = s.notificationId)) = none := by
    rw [List.find?_eq_none]
    intro p hp
    simp only [decide_eq_true_eq]
    exact Nat.ne_of_lt (h p hp)
  unfold mapSet
  rw [hfresh]
  intro p hp
  simp only [Option.isSome_none, Bool.false_eq_true, if_false,
    List.mem_append, List.mem_singleton] at hp
  rcases hp with hp | hp
  · exact Nat.lt_succ_of_lt (h p hp)
  · subst hp
    exact Nat.lt_succ_self _

theorem countNotifWhere_createNotification {s : Store} (h : notifWF s)
    (now : Time) (ins : InsertNotification) (p : Notification → Bool) :
    countNotifWhere (s.createNotification now ins).2 p =
      countNotifWhere s p +
        (if p { id := s.notificationId, type := ins.type,
                actionItemId := ins.actionItemId, message := ins.message,
                read := false, createdAt := now } then 1 else 0) := by
  unfold countNotifWhere
  rw [createNotification_values h now ins, List.filter_append,
    List.length_append]
  congr 1
  rw [List.filter_singleton]
  split <;> simp_all

/-- Properties of the overdue sweep's fold over a list of items, for any
well-formed starting store: it preserves well-formedness and the item map, adds
one `overdue_reminder` per element, and adds one per element with a given id to
that id's count. -/
theorem sweepFold_props (now : Time) (items : List ActionItem) :
    ∀ s : Store, notifWF s →
      notifWF (items.foldl
        (fun st item =>
          (st.createNotification now
            { type := "overdue_reminder", actionItemId := some item.id,
              message :=
                "Overdue: \"" ++ item.title ++ "\" is past its due date." }).2)
        s) ∧
      (items.foldl
        (fun st item =>
          (st.createNotification now
            { type := "overdue_reminder", actionItemId := some item.id,
              message :=
                "Overdue: \"" ++ item.title ++ "\" is past its due date." }).2)
        s).actionItems = s.actionItems ∧
      countNotifWhere (items.foldl
        (fun st item =>
          (st.createNotification now
            { type := "overdue_reminder", actionItemId := some item.id,
              message :=
                "Overdue: \"" ++ item.title ++ "\" is past its due date." }).2)
        s) isOverdueNotif = countNotifWhere s isOverdueNotif + items.length ∧
      ∀ id : Nat,
        countNotifWhere (items.foldl
          (fun st item =>
            (st.createNotification now
              { type := "overdue_reminder", actionItemId := some item.id,
                message :=
                  "Overdue: \"" ++ item.title ++ "\" is past its due date." }).2)
          s) (isOverdueNotifFor id) =
          countNotifWhere s (isOverdueNotifFor id) +
            (items.filter (fun i => i.id == id)).length := by
  induction items with
  | nil => intro s hs; simp [hs]
  | cons item rest ih =>
    intro s hs
    have hwf1 : notifWF (s.createNotification now
        { type := "overdue_reminder", actionItemId := some item.id,
          message :=
            "Overdue: \"" ++ item.title ++ "\" is past its due date." }).2 :=
      notifWF_createNotification hs now _
    obtain ⟨h1, h2, h3, h4⟩ := ih _ hwf1
    refine ⟨h1, ?_, ?_, ?_⟩
    · rw [List.foldl_cons, h2]
      simp [Store.createNotification]
    · rw [List.foldl_cons, h3, countNotifWhere_createNotification hs]
      simp [isOverdueNotif]
      omega
    · intro id
      rw [List.foldl_cons, h4 id, countNotifWhere_createNotification hs]
      by_cases hid : item.id = id
      · simp [isOverdueNotifFor, hid]
        omega
      · simp [isOverdueNotifFor, hid]

/-- `getOverdueActionItems` depends only on the item map. -/
theorem getOverdue_congr {s1 s2 : Store} (h : s2.actionItems = s1.actionItems)
    (now : Time) :
    s2.getOverdueActionItems now = s1.getOverdueActionItems now := by
  unfold Store.getOverdueActionItems
  rw [h]

theorem runOverdueSweep_props (s : Store) (now : Time) (h : notifWF s) :
    notifWF (runOverdueSweep s now) ∧
    (runOverdueSweep s now).actionItems = s.actionItems ∧
    countNotifWhere (runOverdueSweep s now) isOverdueNotif =
      countNotifWhere s isOverdueNotif + (s.getOverdueActionItems now).length ∧
    ∀ id : Nat,
      countNotifWhere (runOverdueSweep s now) (isOverdueNotifFor id) =
        countNotifWhere s (isOverdueNotifFor id) +
          ((s.getOverdueActionItems now).filter (fun i => i.id == id)).length := by
  unfold runOverdueSweep
  exact sweepFold_props now (s.getOverdueActionItems now) s h

theorem iterateSweep_count (now : Time) :
    ∀ (n : Nat) (s : Store), notifWF s →
      countNotifWhere (iterateSweep s now n) isOverdueNotif =
        countNotifWhere s isOverdueNotif +
          n * (s.getOverdueActionItems now).length := by
  intro n
  induction n with
  | zero => intro s _; simp [iterateSweep]
  | succ m ih =>
    intro s hs
    obtain ⟨hwf, hitems, hcount, _⟩ := runOverdueSweep_props s now hs
    rw [iterateSweep, ih _ hwf, hcount, getOverdue_congr hitems now]
    ring

/-- C7: one run of the daily overdue sweep creates exactly one
`overdue_reminder` Notification per currently-overdue item (one per item id,
with no de-duplication against earlier notifications), so `n` consecutive runs
over an unchanged item set accumulate `n` notifications per overdue item. -/
theorem overdue_sweep_counts (s : Store) (now : Time) (h : notifWF s)
    (n : Nat) :
    (countNotifWhere (runOverdueSweep s now) isOverdueNotif =
      countNotifWhere s isOverdueNotif + (s.getOverdueActionItems now).length) ∧
    (∀ id : Nat,
      countNotifWhere (runOverdueSweep s now) (isOverdueNotifFor id) =
        countNotifWhere s (isOverdueNotifFor id) +
          ((s.getOverdueActionItems now).filter
            (fun i => i.id == id)).length) ∧
    (countNotifWhere (iterateSweep s now n) isOverdueNotif =
      countNotifWhere s isOverdueNotif +
        n * (s.getOverdueActionItems now).length) := by
  obtain ⟨_, _, hcount, hper⟩ := runOverdueSweep_props s now h
  exact ⟨hcount, hper, iterateSweep_count now n s h⟩

/-- Witness for C7: sweeping the seeded store (one overdue incomplete item)
once at construction time adds exactly one `overdue_reminder`. -/
theorem overdue_sweep_counts_witness :
    countNotifWhere (runOverdueSweep (initStore 0) 0) isOverdueNotif =
      countNotifWhere (initStore 0) isOverdueNotif +
        ((initStore 0).getOverdueActionItems 0).length :=
  (overdue_sweep_counts (initStore 0) 0 (by decide) 2).1

/-- C8: a reminder timer's callback re-fetches the item and creates exactly one
`action_reminder` Notification (with the kind-specific message) iff the item
still exists and is incomplete; if the item is gone or already completed the
callback returns the store unchanged (a silently dropped stale reminder, not an
error). -/
theorem reminderCallback_spec (s : Store) (now : Time) (aid : Nat)
    (kind : TimerKind) (hwf : notifWF s) :
    (∀ item : ActionItem, s.getActionItem aid = some item →
      item.completed = false →
      mapValues (reminderCallback s now aid kind).notifications =
        mapValues s.notifications ++
          [{ id := s.notificationId, type := "action_reminder",
             actionItemId := some aid,
             message := reminderMessage kind item.title, read := false,
             createdAt := now }] ∧
      (reminderCallback s now aid kind).actionItems = s.actionItems) ∧
    (s.getActionItem aid = none → reminderCallback s now aid kind = s) ∧
    (∀ item : ActionItem, s.getActionItem aid = some item →
      item.completed = true → reminderCallback s now aid kind = s) := by
  refine ⟨?_, ?_, ?_⟩
  · intro item hg hc
    unfold reminderCallback
    rw [hg]
    simp only [hc, Bool.not_false, if_true]
    constructor
    · exact createNotification_values hwf now _
    · simp [Store.createNotification]
  · intro hg
    unfold reminderCallback
    rw [hg]
  · intro item hg hc
    unfold reminderCallback
    rw [hg]
    simp [hc]

/-- Witness for C8: a callback firing for an id that no longer exists leaves
the seeded store untouched. -/
theorem reminderCallback_spec_witness :
    reminderCallback (initStore 0) 10 99 TimerKind.onDue = initStore 0 :=
  (reminderCallback_spec (initStore 0) 10 99 TimerKind.onDue
    (by decide)).2.1 (by decide)

/-- C10: `createRecording` with an id already present does not fail and does
not touch any id counter: it overwrites the stored Recording in place (setting
a missing `createdAt` to now), leaves every other recording unchanged, keeps
the number of recordings the same, and leaves the rest of the store as it was. -/
theorem createRecording_replaces (s : Store) (now : Time)
    (r rOld : Recording) (h : mapGet s.recordings r.id = some rOld) :
    mapGet (s.createRecording now r).2.recordings r.id =
      some (s.createRecording now r).1 ∧
    (s.createRecording now r).1 =
      (if r.createdAt.isNone then { r with createdAt := some now } else r) ∧
    (∀ k : String, k ≠ r.id →
      mapGet (s.createRecording now r).2.recordings k =
        mapGet s.recordings k) ∧
    (s.createRecording now r).2.recordings.length = s.recordings.length ∧
    (s.createRecording now r).2.users = s.users ∧
    (s.createRecording now r).2.decisions = s.decisions ∧
    (s.createRecording now r).2.actionItems = s.actionItems ∧
    (s.createRecording now r).2.notifications = s.notifications ∧
    (s.createRecording now r).2.userId = s.userId ∧
    (s.createRecording now r).2.decisionId = s.decisionId ∧
    (s.createRecording now r).2.actionItemId = s.actionItemId ∧
    (s.createRecording now r).2.notificationId = s.notificationId := by
  have hfound : (s.recordings.find? (fun p => decide (p.1 = r.id))).isSome :=
    find?_isSome_of_mapGet h
  have hrid :
      (if r.createdAt.isNone then { r with createdAt := some now } else r).id =
        r.id := by
    split <;> rfl
  have heq : s.createRecording now r =
      ((if r.createdAt.isNone then { r with createdAt := some now } else r),
       { s with recordings :=
          (mapSet s.recordings
            ((if r.createdAt.isNone then { r with createdAt := some now }
              else r).id)
            (if r.createdAt.isNone then { r with createdAt := some now }
              else r)) }) := by
    unfold Store.createRecording
    rfl
  rw [heq]
  dsimp only
  refine ⟨?_, rfl, ?_, ?_, rfl, rfl, rfl, rfl, rfl, rfl, rfl, rfl⟩
  · rw [hrid]
    exact mapGet_mapSet_self _ _ _
  · intro k hk
    rw [hrid]
    exact mapGet_mapSet_ne _ _ _ _ hk
  · rw [hrid]
    exact length_mapSet_of_found _ hfound

/-- Witness for C10: overwriting a stored recording keeps the recording count. -/
theorem createRecording_replaces_witness :
    (((mkStore.createRecording 0
        { id := "r1", title := none, transcription := none, duration := none,
          status := "pending", createdAt := none }).2.createRecording 5
      { id := "r1", title := some "t", transcription := none, duration := none,
        status := "completed", createdAt := none }).2).recordings.length =
      ((mkStore.createRecording 0
        { id := "r1", title := none, transcription := none, duration := none,
          status := "pending", createdAt := none }).2).recordings.length :=
  (createRecording_replaces
    (mkStore.createRecording 0
      { id := "r1", title := none, transcription := none, duration := none,
        status := "pending", createdAt := none }).2 5
    { id := "r1", title := some "t", transcription := none, duration := none,
      status := "completed", createdAt := none }
    { id := "r1", title := none, transcription := none, duration := none,
      status := "pending", createdAt := some 0 }
    (by decide)).2.2.2.1

/-! ## List-operation helper lemmas -/

theorem listDecisions_none_eq (s : Store) :
    s.listDecisions none =
      List.insertionSort decisionNewestFirst (mapValues s.decisions) := by
  simp only [Store.listDecisions, jsLimit]

theorem listDecisions_some_eq (s : Store) (n : Nat) (hn : n ≠ 0) :
    s.listDecisions (some n) = (s.listDecisions none).take n := by
  simp only [Store.listDecisions, jsLimit]
  rw [if_pos hn]

theorem listActionItems_filtered (s : Store)
    (filters : Option ActionItemFilters) :
    s.listActionItems filters none =
      List.insertionSort dueDateAsc
        ((mapValues s.actionItems).filter
          (matchesActionItemFilters filters)) := by
  simp only [Store.listActionItems, jsLimit]
  congr 1
  cases filters with
  | none => exact (List.filter_eq_self.mpr (fun a _ => rfl)).symm
  | some f =>
    cases hc : f.completed with
    | none =>
      cases hd : f.decisionId with
      | none =>
        simp only [hc, hd]
        exact (List.filter_eq_self.mpr (fun a _ => by
          simp [matchesActionItemFilters, hc, hd])).symm
      | some d =>
        simp only [hc, hd]
        exact List.filter_congr (fun a _ => by
          simp [matchesActionItemFilters, hc, hd])
    | some c =>
      cases hd : f.decisionId with
      | none =>
        simp only [hc, hd]
        exact List.filter_congr (fun a _ => by
          simp [matchesActionItemFilters, hc, hd])
      | some d =>
        simp only [hc, hd]
        rw [List.filter_filter]
        exact List.filter_congr (fun a _ => by
          simp [matchesActionItemFilters, hc, hd, Bool.and_comm])

theorem listActionItems_some_eq (s : Store) (filters : Option ActionItemFilters)
    (n : Nat) (hn : n ≠ 0) :
    s.listActionItems filters (some n) =
      (s.listActionItems filters none).take n := by
  simp only [Store.listActionItems, jsLimit]
  rw [if_pos hn]

theorem listNotifications_filtered (s : Store) (read : Option Bool) :
    s.listNotifications read none =
      List.insertionSort notifNewestFirst
        ((mapValues s.notifications).filter (matchesReadFilter read)) := by
  simp only [Store.listNotifications, jsLimit]
  congr 1
  cases read with
  | none => exact (List.filter_eq_self.mpr (fun a _ => rfl)).symm
  | some r =>
    exact List.filter_congr (fun a _ => by simp [matchesReadFilter])

theorem listNotifications_some_eq (s : Store) (read : Option Bool) (n : Nat)
    (hn : n ≠ 0) :
    s.listNotifications read (some n) =
      (s.listNotifications read none).take n := by
  simp only [Store.listNotifications, jsLimit]
  rw [if_pos hn]

theorem listRecordings_none_eq (s : Store) :
    s.listRecordings none =
      List.insertionSort recNewestFirst (mapValues s.recordings) := by
  simp only [Store.listRecordings, jsLimit]

theorem listRecordings_some_eq (s : Store) (n : Nat) (hn : n ≠ 0) :
    s.listRecordings (some n) = (s.listRecordings none).take n := by
  simp only [Store.listRecordings, jsLimit]
  rw [if_pos hn]

/-- C9 (amended): every list operation returns exactly the entities matching
all supplied filters, in its fixed sort order (decisions/notifications newest
`createdAt` first, action items ascending `dueDate`, recordings newest first
with null `createdAt` as the epoch), and a POSITIVE supplied limit truncates
the sorted result to at most `n` entries — a supplied limit of `0` is falsy in
JS and means no truncation. -/
theorem list_ops_spec (s : Store) (filters : Option ActionItemFilters)
    (read : Option Bool) (n : Nat) (hn : 0 < n) :
    List.Sorted decisionNewestFirst (s.listDecisions none) ∧
    (s.listDecisions none).Perm (mapValues s.decisions) ∧
    s.listDecisions (some n) = (s.listDecisions none).take n ∧
    (s.listDecisions (some n)).length ≤ n ∧
    List.Sorted dueDateAsc (s.listActionItems filters none) ∧
    (s.listActionItems filters none).Perm
      ((mapValues s.actionItems).filter (matchesActionItemFilters filters)) ∧
    s.listActionItems filters (some n) =
      (s.listActionItems filters none).take n ∧
    (s.listActionItems filters (some n)).length ≤ n ∧
    List.Sorted dueDateAsc (s.listActionItems filters (some n)) ∧
    List.Sorted notifNewestFirst (s.listNotifications read none) ∧
    (s.listNotifications read none).Perm
      ((mapValues s.notifications).filter (matchesReadFilter read)) ∧
    s.listNotifications read (some n) =
      (s.listNotifications read none).take n ∧
    (s.listNotifications read (some n)).length ≤ n ∧
    List.Sorted notifNewestFirst (s.listNotifications read (some n)) ∧
    List.Sorted recNewestFirst (s.listRecordings none) ∧
    (s.listRecordings none).Perm (mapValues s.recordings) ∧
    s.listRecordings (some n) = (s.listRecordings none).take n ∧
    (s.listRecordings (some n)).length ≤ n := by
  have hn0 : n ≠ 0 := hn.ne'
  refine ⟨?_, ?_, listDecisions_some_eq s n hn0, ?_, ?_, ?_,
    listActionItems_some_eq s filters n hn0, ?_, ?_, ?_, ?_,
    listNotifications_some_eq s read n hn0, ?_, ?_, ?_, ?_,
    listRecordings_some_eq s n hn0, ?_⟩
  · rw [listDecisions_none_eq]
    exact List.sorted_insertionSort _ _
  · rw [listDecisions_none_eq]
    exact List.perm_insertionSort _ _
  · rw [listDecisions_some_eq s n hn0]
    exact List.length_take_le _ _
  · rw [listActionItems_filtered]
    exact List.sorted_insertionSort _ _
  · rw [listActionItems_filtered]
    exact List.perm_insertionSort _ _
  · rw [listActionItems_some_eq s filters n hn0]
    exact List.length_take_le _ _
  · rw [listActionItems_some_eq s filters n hn0]
    exact List.Pairwise.sublist (List.take_sublist _ _)
      (by rw [listActionItems_filtered]; exact List.sorted_insertionSort _ _)
  · rw [listNotifications_filtered]
    exact List.sorted_insertionSort _ _
  · rw [listNotifications_filtered]
    exact List.perm_insertionSort _ _
  · rw [listNotifications_some_eq s read n hn0]
    exact List.length_take_le _ _
  · rw [listNotifications_some_eq s read n hn0]
    exact List.Pairwise.sublist (List.take_sublist _ _)
      (by rw [listNotifications_filtered]; exact List.sorted_insertionSort _ _)
  · rw [listRecordings_none_eq]
    exact List.sorted_insertionSort _ _
  · rw [listRecordings_none_eq]
    exact List.perm_insertionSort _ _
  · rw [listRecordings_some_eq s n hn0]
    exact List.length_take_le _ _

/-- Witness for C9 (amended): in the seeded store a supplied limit of 1 caps
the notification list at one entry. -/
theorem list_ops_spec_witness :
    ((initStore 0).listNotifications none (some 1)).length ≤ 1 :=
  (list_ops_spec (initStore 0) none none 1 (by decide)).2.2.2.2.2.2.2.2.2.2.2.2.1

end App
